import Mathlib

/-!
Verification of the Guitar-Hero rhythm-game state engine (`src/main.ts`).

The reducer core of the game is embedded shallowly: JavaScript numbers are
modelled as rationals (every quantity the reducer manipulates stays on an
exactly representable grid — scores and multipliers are re-rounded to one
decimal after every update, positions move on a grid of multiples of 3.5,
and the PRNG works on 31-bit naturals), arrays become lists, `null`able
fields become `Option`, and the `reduce(state, event)` fold becomes a pure
function over an inductive event type.
-/

namespace GuitarHero

/-! ## Constants (from `Constants` and `NoteConstants` in `main.ts`) -/

namespace Constants

def TICK_RATE_MS : ℚ := 20

def SECOND_PER_TICK : ℚ := 1 / 50

end Constants

namespace NoteConstants

def TAIL_WIDTH : ℚ := 10

def NOTE_PATH_LENGTH : ℚ := 350

def NOTE_TRAVEL_DURATION : ℚ := 2000

def NOTE_ALIGNMENT_TOLERANCE : ℚ := 30

end NoteConstants

/-! ## Data model (`Note`, `Tail`, `State` types in `main.ts`) -/

structure Tail where
  id : String
  createTime : ℕ
  width : ℚ
  height : ℚ
  x : String
  y : ℚ
  duration : ℚ
  style : String
deriving DecidableEq

structure Note where
  id : String
  createTime : ℕ
  userPlayed : Bool
  instrumentName : String
  velocity : ℚ
  pitch : ℕ
  start : ℚ
  «end» : ℚ
  cx : String
  cy : ℚ
  tail : Option Tail
deriving DecidableEq

structure State where
  time : ℕ
  gameEnd : Bool
  note : List Note
  tail : List Tail
  exit : List (Note ⊕ Tail)
  noteCount : ℕ
  score : ℚ
  playNote : List Note
  backgroundNote : List Note
  randomNotes : List Note
  consecutiveHits : ℕ
  multiplier : ℚ
deriving DecidableEq

/-- The closed union of reducer events: the five event classes
(`MusicNote`, `Tick`, `KeyPressEvent`, `BackgroundNote`, `EndTail`)
plus the game-end signal (`Number` in the source). -/
inductive GameEvent where
  | musicNote (note : Note)
  | tick (elapsed : ℕ)
  | keyPress (column : ℕ)
  | backgroundNote (note : Note)
  | endTail (endTime : ℚ)
  | gameEnd
deriving DecidableEq

/-! ## PRNG (`RNG` class in `main.ts`) -/

namespace RNG

def m : ℕ := 2147483648

def a : ℕ := 1103515245

def c : ℕ := 12345

/-- Round `v` to the nearest multiple of `2^j`, ties to the even multiple —
the IEEE-754 round-to-nearest-even rule at granularity `2^j`. -/
def roundNearestPow2 (j v : ℕ) : ℕ :=
  if 2 * (v % 2 ^ j) < 2 ^ j then v / 2 ^ j * 2 ^ j
  else if 2 ^ j < 2 * (v % 2 ^ j) then (v / 2 ^ j + 1) * 2 ^ j
  else if v / 2 ^ j % 2 = 0 then v / 2 ^ j * 2 ^ j
  else (v / 2 ^ j + 1) * 2 ^ j

/-- Granularity exponent of an IEEE double for an integer `v ≥ 2^53`:
the doubles in `[2^(52+j), 2^(53+j))` are exactly the multiples of `2^j`.
Written as an explicit case split, valid for `v < 2^62`, which covers every
intermediate value `hash` computes on seeds below `2^31`. -/
def roundExp (v : ℕ) : ℕ :=
  if v < 2 ^ 54 then 1
  else if v < 2 ^ 55 then 2
  else if v < 2 ^ 56 then 3
  else if v < 2 ^ 57 then 4
  else if v < 2 ^ 58 then 5
  else if v < 2 ^ 59 then 6
  else if v < 2 ^ 60 then 7
  else if v < 2 ^ 61 then 8
  else 9

/-- The integer value of the IEEE double nearest to the integer `v`
(faithful for `v < 2^62`): integers below `2^53` are exactly representable,
larger ones round to the nearest multiple of the granularity, ties to even. -/
def roundDouble (v : ℕ) : ℕ :=
  if v < 2 ^ 53 then v else roundNearestPow2 (roundExp v) v

/-- LCG step as the source computes it in JavaScript double arithmetic:
`RNG.a * seed` rounds to the nearest double, adding `RNG.c` rounds again,
and the remainder by `m` is then exact (both operands are integer doubles,
so `%` introduces no further error).  For seeds below `2^31` every
intermediate value stays below `2^62`, where `roundDouble` is faithful. -/
def hash (seed : ℕ) : ℕ := roundDouble (roundDouble (a * seed) + c) % m

/-- Scale a hash into the unit range: `hash / (m - 1)`. -/
def scale (h : ℕ) : ℚ := (h : ℚ) / ((m : ℚ) - 1)

/-- Seeds reachable in the four generator streams: iterates of `hash`
starting from the stream seeds 100, 1, 2 and 3. -/
def reachableSeed (x : ℕ) : Prop :=
  ∃ (k : ℕ) (s : ℕ), s ∈ ([100, 1, 2, 3] : List ℕ) ∧ hash^[k] s = x

end RNG

/-! ## Utility functions -/

def assignColumn (pitch : ℕ) : ℕ := pitch % 4

def movementPerTick : ℚ :=
  NoteConstants.NOTE_PATH_LENGTH /
    (NoteConstants.NOTE_TRAVEL_DURATION / Constants.TICK_RATE_MS)

def tailLength (noteDuration : ℚ) : ℚ :=
  NoteConstants.NOTE_PATH_LENGTH / NoteConstants.NOTE_TRAVEL_DURATION *
    (noteDuration * 1000)

def isAlignedCurried (tolerance : ℚ) (targetCy : ℚ) (note : Note) : Bool :=
  decide (|note.cy - targetCy| ≤ tolerance)

def isAligned : Note → Bool :=
  isAlignedCurried NoteConstants.NOTE_ALIGNMENT_TOLERANCE
    NoteConstants.NOTE_PATH_LENGTH

def initialState : State :=
  { time := 0
    gameEnd := false
    note := []
    tail := []
    exit := []
    noteCount := 0
    score := 0
    playNote := []
    backgroundNote := []
    randomNotes := []
    consecutiveHits := 0
    multiplier := 1 }

/-- JavaScript `Math.round`: round half toward positive infinity. -/
def jsRound (q : ℚ) : ℤ := ⌊q + 1 / 2⌋

/-- `Math.round(q * 10) / 10`: round to one decimal. -/
def round1 (q : ℚ) : ℚ := (jsRound (q * 10) : ℚ) / 10

/-- Result record of `calculateMultiplierAndScore`. -/
structure ScoreUpdate where
  newStreak : ℕ
  roundedMultiplier : ℚ
  roundedScore : ℚ
deriving DecidableEq

/-- The shared scoring update (`calculateMultiplierAndScore` in `main.ts`). -/
def calculateMultiplierAndScore (s : State) : ScoreUpdate :=
  let newStreak := s.consecutiveHits + 1
  let newMultiplier :=
    if newStreak % 10 = 0 then s.multiplier + 2 / 10 else s.multiplier
  let roundedMultiplier := round1 newMultiplier
  let roundedScore := round1 (s.score + 1 * roundedMultiplier)
  { newStreak := newStreak
    roundedMultiplier := roundedMultiplier
    roundedScore := roundedScore }

/-- `createTail` in `main.ts`; the raw chart note is passed
(the source reads it off the event as `e.note`). -/
def createTail (s : State) (n : Note) : Tail :=
  let tailDistance := tailLength (n.«end» - n.start)
  { id := "Tail" ++ toString s.noteCount
    createTime := s.time
    width := NoteConstants.TAIL_WIDTH
    height := tailDistance
    x := toString ([35, 75, 115, 155].getD (assignColumn n.pitch) 0)
    y := -1 * tailDistance
    duration := n.«end» - n.start
    style := "fill: " ++ ["green", "red", "blue", "yellow"].getD (assignColumn n.pitch) "" }

/-- The fixed dummy note `createNote` returns for a `KeyPressEvent`. -/
def dummyNote : Note :=
  { id := ""
    createTime := 0
    userPlayed := true
    instrumentName := "piano"
    velocity := 0
    pitch := 0
    start := 0
    «end» := 0
    cx := ""
    cy := 0
    tail := none }

/-- `createNote` in `main.ts`.  Only the three event classes the source
accepts construct meaningful notes; the remaining cases are never passed
by `reduceState` and return the dummy note. -/
def createNote (s : State) (e : GameEvent) : Note :=
  match e with
  | .keyPress _ => dummyNote
  | .musicNote n =>
      { id := "note" ++ toString s.noteCount
        createTime := s.time
        userPlayed := n.userPlayed
        instrumentName := n.instrumentName
        velocity := n.velocity
        pitch := n.pitch
        start := n.start
        «end» := n.«end»
        cx := n.cx
        cy := 0
        tail := if n.«end» - n.start ≥ 1 then some (createTail s n) else none }
  | .backgroundNote n =>
      { id := ""
        createTime := s.time
        userPlayed := n.userPlayed
        instrumentName := n.instrumentName
        velocity := n.velocity
        pitch := n.pitch
        start := n.start
        «end» := n.«end»
        cx := n.cx
        cy := 0
        tail := if n.«end» - n.start ≥ 1 then some (createTail s n) else none }
  | _ => dummyNote

/-- `moveNote` in `main.ts`. -/
def moveNote (note : Note) : Note :=
  { note with cy := note.cy + movementPerTick }

/-- `moveTail` in `main.ts`. -/
def moveTail (tail : Tail) : Tail :=
  if tail.y + tail.height ≥ NoteConstants.NOTE_PATH_LENGTH then
    let newHeight := max 0 (tail.height - movementPerTick)
    { tail with height := newHeight, y := NoteConstants.NOTE_PATH_LENGTH - newHeight }
  else
    { tail with y := tail.y + movementPerTick }

/-- `noteExpired` inside `tick`: elapsed ticks since creation exceed
`NOTE_TRAVEL_DURATION / 1000 / SECOND_PER_TICK` (= 100). -/
def noteExpired (elapsed : ℕ) (note : Note) : Bool :=
  decide ((elapsed : ℚ) - (note.createTime : ℚ) >
    NoteConstants.NOTE_TRAVEL_DURATION / 1000 / Constants.SECOND_PER_TICK)

/-- `tailExpired` inside `tick`: elapsed ticks since creation exceed
`duration * 5 / SECOND_PER_TICK`. -/
def tailExpired (elapsed : ℕ) (tail : Tail) : Bool :=
  decide ((elapsed : ℚ) - (tail.createTime : ℚ) >
    tail.duration * 5 / Constants.SECOND_PER_TICK)

/-- `tick` in `main.ts`. -/
def tick (s : State) (elapsed : ℕ) : State :=
  let expiredNote := s.note.filter (fun note => noteExpired elapsed note)
  let activeNote := s.note.filter (fun note => !noteExpired elapsed note)
  let expiredTail := s.tail.filter (fun tail => tailExpired elapsed tail)
  let activeTail := s.tail.filter (fun tail => !tailExpired elapsed tail)
  let missedNotes :=
    (expiredNote.filter (fun note => !s.playNote.contains note)).filter
      (fun note => note.tail.isNone)
  { s with
    note := activeNote.map moveNote
    tail := activeTail.map moveTail
    exit := expiredNote.map Sum.inl ++ expiredTail.map Sum.inr
    time := elapsed
    playNote := []
    backgroundNote := []
    randomNotes := []
    consecutiveHits := if 0 < missedNotes.length then 0 else s.consecutiveHits
    multiplier := if 0 < missedNotes.length then 1 else s.multiplier }

/-- `processNoteEvent` in `main.ts` (handles `KeyPressEvent` and `EndTail`;
other events are never passed and leave the state unchanged). -/
def processNoteEvent (s : State) (e : GameEvent) : State :=
  match e with
  | .keyPress column =>
      match s.note.find? (fun note => assignColumn note.pitch == column) with
      | some activeNote =>
          if isAligned activeNote then
            match activeNote.tail with
            | none =>
                let u := calculateMultiplierAndScore s
                { s with
                  note := s.note.filter (fun note => note != activeNote)
                  exit := s.exit ++ [Sum.inl activeNote]
                  score := u.roundedScore
                  playNote := s.playNote ++ [activeNote]
                  consecutiveHits := u.newStreak
                  multiplier := u.roundedMultiplier }
            | some _ =>
                { s with
                  note := s.note.filter (fun note => note != activeNote)
                  exit := s.exit ++ [Sum.inl activeNote]
                  playNote := s.playNote ++ [activeNote] }
          else
            { s with randomNotes := s.randomNotes ++ [createNote s e] }
      | none =>
          { s with randomNotes := s.randomNotes ++ [createNote s e] }
  | .endTail endTime =>
      let isTailAlign :=
        decide (|(s.time : ℚ) * Constants.SECOND_PER_TICK - endTime -
          NoteConstants.NOTE_TRAVEL_DURATION / 1000| ≤ 25 / 100)
      if isTailAlign then
        let u := calculateMultiplierAndScore s
        { s with
          score := u.roundedScore
          consecutiveHits := u.newStreak
          multiplier := u.roundedMultiplier }
      else
        { s with consecutiveHits := 0, multiplier := 1 }
  | _ => s

/-- `reduceState` in `main.ts`: the pure fold over the merged event channel. -/
def reduceState (s : State) (e : GameEvent) : State :=
  match e with
  | .musicNote _ =>
      let newNote := createNote s e
      match newNote.tail with
      | some t =>
          { s with
            note := s.note ++ [newNote]
            noteCount := s.noteCount + 1
            tail := s.tail ++ [t] }
      | none =>
          { s with
            note := s.note ++ [newNote]
            noteCount := s.noteCount + 1 }
  | .keyPress _ => processNoteEvent s e
  | .backgroundNote _ =>
      { s with playNote := s.backgroundNote ++ [createNote s e] }
  | .tick elapsed => tick s elapsed
  | .endTail _ => processNoteEvent s e
  | .gameEnd => { s with gameEnd := true }

/-- States reachable by folding reducer events from the initial state. -/
inductive Reachable : State → Prop where
  | init : Reachable initialState
  | step (s : State) (e : GameEvent) : Reachable s → Reachable (reduceState s e)

/-! ## The scoring update as the specification words it -/

/-- The scoring update exactly as the specification describes it:
`streak' = streak + 1`; `multiplier' = multiplier + 0.2` if
`streak' mod 10 == 0`, else unchanged, rounded to one decimal;
`score' = round(score + 1 × multiplier', 1 decimal)`. -/
def specScoringUpdate (streak : ℕ) (multiplier score : ℚ) : ScoreUpdate :=
  let newStreak := streak + 1
  let roundedMultiplier :=
    round1 (if newStreak % 10 = 0 then multiplier + 2 / 10 else multiplier)
  { newStreak := newStreak
    roundedMultiplier := roundedMultiplier
    roundedScore := round1 (score + 1 * roundedMultiplier) }

/-- Multiplier invariant of reachable states: the multiplier is `k/10`
for a natural `k ≥ 10` (it starts at `1`, resets to `1`, and steps by `0.2`
with re-rounding to the tenths grid). -/
def MultInv (s : State) : Prop := ∃ k : ℕ, 10 ≤ k ∧ s.multiplier = (k : ℚ) / 10

/-! ## Concrete verification states -/

/-- A raw chart note for lane 0 with a one-second sustain
(`end - start = 1 ≥ 1`, so spawning it creates a tail). -/
def rawTailedNote : Note :=
  { id := ""
    createTime := 0
    userPlayed := true
    instrumentName := "piano"
    velocity := 1
    pitch := 0
    start := 0
    «end» := 1
    cx := "20%"
    cy := 0
    tail := none }

/-- Spawn the sustained note at tick 0, then 100 consecutive clock ticks:
the note travels to the hit line (`cy = 350`) without expiring. -/
def gameEvents : List GameEvent :=
  GameEvent.musicNote rawTailedNote ::
    (List.range 100).map (fun k => GameEvent.tick (k + 1))

def s100 : State := List.foldl reduceState initialState gameEvents

/-- Scenario-B start state: streak 0, multiplier 1; the clock is at tick 100
so a tail release with `endTime = 0` is time-aligned (`|100·0.02 − 0 − 2| = 0`). -/
def scenarioBState : State := { initialState with time := 100 }

/-- A state whose per-tick `playNote` output already holds an entry. -/
def sPlay : State := { initialState with playNote := [dummyNote] }

/-- A raw ambient (non-user-played) chart note. -/
def rawBackgroundNote : Note :=
  { id := ""
    createTime := 0
    userPlayed := false
    instrumentName := "flute"
    velocity := 1 / 2
    pitch := 5
    start := 0
    «end» := 1 / 2
    cx := "40%"
    cy := 0
    tail := none }

def wTail : Tail :=
  { id := "Tail0"
    createTime := 0
    width := 10
    height := 175
    x := "35"
    y := -175
    duration := 1
    style := "fill: green" }

/-- A tailed live note that has been on screen for more than 100 ticks. -/
def wTailedNote : Note :=
  { id := "note0"
    createTime := 0
    userPlayed := true
    instrumentName := "piano"
    velocity := 1
    pitch := 0
    start := 0
    «end» := 1
    cx := "20%"
    cy := 350
    tail := some wTail }

/-- A state holding one expired tailed note, with a streak in progress. -/
def sW : State :=
  { initialState with
    note := [wTailedNote]
    tail := [wTail]
    consecutiveHits := 5
    multiplier := 12 / 10 }

/-- A state holding one freshly spawned (tailless) note. -/
def s7 : State := { initialState with note := [dummyNote] }

/-! ## Theorems -/

set_option allowUnsafeReducibility true

attribute [local semireducible] Rat.add Rat.mul Rat.inv Rat.sub

set_option maxRecDepth 100000

/-- C1: the shared scoring update computes `streak' = streak + 1`,
`multiplier' = multiplier + 0.2` exactly at multiples of ten (rounded to one
decimal), and `score' = round(score + 1 × multiplier', 1 decimal)`; starting
from streak 0 and multiplier 1.0, ten consecutive aligned hits leave the
multiplier at exactly 1.2 on the tenth hit and at 1.4 by the twentieth. -/
theorem claim1_scoring_update :
    (∀ s : State,
      calculateMultiplierAndScore s =
        specScoringUpdate s.consecutiveHits s.multiplier s.score) ∧
    ((fun s => reduceState s (GameEvent.endTail 0))^[10] scenarioBState).multiplier
      = 12 / 10 ∧
    ((fun s => reduceState s (GameEvent.endTail 0))^[20] scenarioBState).multiplier
      = 14 / 10 :=
  ⟨fun _ => rfl, by decide, by decide⟩

/-- C3 (amended): a background-spawn event sets the per-tick `playNote`
output to `s.backgroundNote` extended by the materialized ambient note —
not to `s.playNote` extended by it — while leaving the live note sequence
and the score/streak/multiplier fields unchanged. -/
theorem claim3_background_spawn :
    ∀ (s : State) (n : Note),
      (reduceState s (GameEvent.backgroundNote n)).playNote
          = s.backgroundNote ++ [createNote s (GameEvent.backgroundNote n)] ∧
      (reduceState s (GameEvent.backgroundNote n)).note = s.note ∧
      (reduceState s (GameEvent.backgroundNote n)).score = s.score ∧
      (reduceState s (GameEvent.backgroundNote n)).consecutiveHits
          = s.consecutiveHits ∧
      (reduceState s (GameEvent.backgroundNote n)).multiplier = s.multiplier :=
  fun _ _ => ⟨rfl, rfl, rfl, rfl, rfl⟩

/-- C3 counterexample: in a state whose `playNote` already holds an entry,
processing a background spawn does not extend `s.playNote` — the previous
entry is dropped from the output. -/
theorem claim3_counterexample :
    (reduceState sPlay (GameEvent.backgroundNote rawBackgroundNote)).playNote
        ≠ sPlay.playNote ++ [createNote sPlay (GameEvent.backgroundNote rawBackgroundNote)] ∧
    dummyNote ∈ sPlay.playNote ∧
    dummyNote ∉ (reduceState sPlay (GameEvent.backgroundNote rawBackgroundNote)).playNote :=
  ⟨by decide, by decide, by decide⟩

/-- C5: a located note is aligned exactly when `|cy − 350| ≤ 30`, and when
the pressed lane has no live note — or its first located note is not
aligned — the reducer appends exactly one dummy entry to `randomNotes` and
changes nothing else (score, streak, multiplier and live notes included). -/
theorem claim5_mispress :
    ∀ (s : State) (column : ℕ),
      (∀ note : Note, isAligned note = true ↔ |note.cy - 350| ≤ 30) ∧
      ((∀ a : Note,
          s.note.find? (fun note => assignColumn note.pitch == column) = some a →
          isAligned a = false) →
        reduceState s (GameEvent.keyPress column)
          = { s with randomNotes := s.randomNotes ++ [dummyNote] }) := by
  intro s column
  constructor
  · intro note
    simp [isAligned, isAlignedCurried, NoteConstants.NOTE_ALIGNMENT_TOLERANCE,
      NoteConstants.NOTE_PATH_LENGTH]
  · intro h
    cases hf : s.note.find? (fun note => assignColumn note.pitch == column) with
    | none =>
        simp only [reduceState, processNoteEvent, hf]
        rfl
    | some a =>
        simp only [reduceState, processNoteEvent, hf, h a hf,
          Bool.false_eq_true, if_false]
        rfl

/-- C5 witness: pressing lane 0 in the initial state (no live notes) records
exactly one dummy entry and nothing else. -/
theorem claim5_witness :
    reduceState initialState (GameEvent.keyPress 0)
      = { initialState with
            randomNotes := initialState.randomNotes ++ [dummyNote] } :=
  (claim5_mispress initialState 0).2
    (fun a ha => by simp [initialState, List.find?] at ha)

/-- C6: a tail release with payload `endTime` is judged by time — aligned
exactly when `|time·0.02 − endTime − 2| ≤ 0.25`; aligned releases apply the
shared scoring update, misaligned ones reset streak to 0 and multiplier to 1
with the score unchanged. -/
theorem claim6_tail_release :
    ∀ (s : State) (endTime : ℚ),
      reduceState s (GameEvent.endTail endTime) =
        if |(s.time : ℚ) * (1 / 50) - endTime - 2| ≤ 1 / 4 then
          { s with
            score := (calculateMultiplierAndScore s).roundedScore
            consecutiveHits := (calculateMultiplierAndScore s).newStreak
            multiplier := (calculateMultiplierAndScore s).roundedMultiplier }
        else { s with consecutiveHits := 0, multiplier := 1 } := by
  intro s endTime
  have hcond :
      (|(s.time : ℚ) * Constants.SECOND_PER_TICK - endTime -
          NoteConstants.NOTE_TRAVEL_DURATION / 1000| ≤ 25 / 100)
        ↔ |(s.time : ℚ) * (1 / 50) - endTime - 2| ≤ 1 / 4 := by
    norm_num [Constants.SECOND_PER_TICK, NoteConstants.NOTE_TRAVEL_DURATION]
  simp only [reduceState, processNoteEvent]
  by_cases hc : |(s.time : ℚ) * (1 / 50) - endTime - 2| ≤ 1 / 4
  · rw [if_pos (decide_eq_true (hcond.mpr hc)), if_pos hc]
  · rw [if_neg (by simp only [decide_eq_true_eq]; exact fun hx => hc (hcond.mp hx)),
      if_neg hc]

/-- Folding reducer events from a reachable state stays reachable. -/
theorem reachable_foldl :
    ∀ (l : List GameEvent) (s : State), Reachable s →
      Reachable (List.foldl reduceState s l) := by
  intro l
  induction l with
  | nil => exact fun s h => h
  | cons e l ih => exact fun s h => ih (reduceState s e) (Reachable.step s e h)

/-- C2 (amended): a tail is not destroyed together with its note — a
successful press on an aligned tailed note leaves the live tail sequence
unchanged, and the tick transition removes a tail only by the tail's own
expiry rule, independent of its owning note. -/
theorem claim2_tail_outlives_note :
    (∀ (s : State) (column : ℕ),
      (s.note.find? (fun note => assignColumn note.pitch == column)).any
          (fun a => isAligned a && a.tail.isSome) = true →
      (reduceState s (GameEvent.keyPress column)).tail = s.tail) ∧
    (∀ (s : State) (elapsed : ℕ),
      (tick s elapsed).tail =
        (s.tail.filter (fun tail => !tailExpired elapsed tail)).map moveTail) := by
  constructor
  · intro s column h
    cases hf : s.note.find? (fun note => assignColumn note.pitch == column) with
    | none => rw [hf] at h; exact absurd h (by simp [Option.any])
    | some a =>
        rw [hf] at h
        simp only [Option.any, Bool.and_eq_true, Option.isSome_iff_exists] at h
        obtain ⟨hal, t, ht⟩ := h
        simp only [reduceState, processNoteEvent, hf, hal, if_true, ht]
  · intro s elapsed
    rfl

/-- C2 witness: in the reachable state `s100` the located lane-0 note is
aligned and tailed, and pressing lane 0 leaves the tail sequence unchanged. -/
theorem claim2_witness :
    (reduceState s100 (GameEvent.keyPress 0)).tail = s100.tail ∧ s100.tail ≠ [] :=
  ⟨claim2_tail_outlives_note.1 s100 0 (by decide), by decide⟩

/-- C2 counterexample: `s100` is reachable (spawn a sustained note, then 100
clock ticks), its lane-0 note is aligned and owns a tail, and the successful
press removes the note while its tail stays live — a reachable state with a
live tail whose owning note is gone. -/
theorem claim2_counterexample :
    Reachable (reduceState s100 (GameEvent.keyPress 0)) ∧
    (s100.note.find? (fun note => assignColumn note.pitch == 0)).any
        (fun a => isAligned a && a.tail.isSome) = true ∧
    (reduceState s100 (GameEvent.keyPress 0)).note = [] ∧
    (reduceState s100 (GameEvent.keyPress 0)).tail = s100.tail ∧
    s100.tail ≠ [] := by
  refine ⟨?_, by decide, by decide, by decide, by decide⟩
  exact Reachable.step s100 (GameEvent.keyPress 0)
    (reachable_foldl gameEvents initialState Reachable.init)

/-- The aggregate miss test of `tick` (`missedNotes.length > 0`) holds
exactly when some live note expired, is not in `playNote`, and has no tail. -/
theorem missed_iff (s : State) (elapsed : ℕ) :
    0 < (((s.note.filter (fun note => noteExpired elapsed note)).filter
          (fun note => !s.playNote.contains note)).filter
            (fun note => note.tail.isNone)).length
      ↔ ∃ n ∈ s.note, noteExpired elapsed n = true ∧ n ∉ s.playNote ∧
          n.tail = none := by
  rw [List.length_pos_iff_exists_mem]
  simp only [List.mem_filter, Bool.not_eq_true', Option.isNone_iff_eq_none]
  constructor
  · rintro ⟨n, ⟨⟨hn, he⟩, hp⟩, ht⟩
    refine ⟨n, hn, he, ?_, ht⟩
    simpa using hp
  · rintro ⟨n, hn, he, hp, ht⟩
    refine ⟨n, ⟨⟨hn, he⟩, ?_⟩, ht⟩
    simpa using hp

/-- C4: on a tick, the streak and multiplier reset exactly when some live
note expired unplayed with no tail; every expired live note moves to `exit`;
and when every expired note is tailed (so none is counted missed) the
streak and multiplier are unchanged. -/
theorem claim4_miss_rule :
    ∀ (s : State) (elapsed : ℕ),
      ((tick s elapsed).consecutiveHits =
        if ∃ n ∈ s.note, noteExpired elapsed n = true ∧ n ∉ s.playNote ∧
            n.tail = none then 0
        else s.consecutiveHits) ∧
      ((tick s elapsed).multiplier =
        if ∃ n ∈ s.note, noteExpired elapsed n = true ∧ n ∉ s.playNote ∧
            n.tail = none then 1
        else s.multiplier) ∧
      (∀ n ∈ s.note, noteExpired elapsed n = true →
        Sum.inl n ∈ (tick s elapsed).exit) ∧
      ((∀ n ∈ s.note, noteExpired elapsed n = true → n.tail ≠ none) →
        (tick s elapsed).consecutiveHits = s.consecutiveHits ∧
        (tick s elapsed).multiplier = s.multiplier) := by
  intro s elapsed
  have hmiss := missed_iff s elapsed
  refine ⟨?_, ?_, ?_, ?_⟩
  · simp only [tick]
    split
    · rw [if_pos (hmiss.mp (by assumption))]
    · rw [if_neg (fun hx => (by assumption : ¬ _) (hmiss.mpr hx))]
  · simp only [tick]
    split
    · rw [if_pos (hmiss.mp (by assumption))]
    · rw [if_neg (fun hx => (by assumption : ¬ _) (hmiss.mpr hx))]
  · intro n hn he
    simp only [tick, List.mem_append, List.mem_map]
    exact Or.inl ⟨n, List.mem_filter.mpr ⟨hn, he⟩, rfl⟩
  · intro h
    have hne : ¬ ∃ n ∈ s.note, noteExpired elapsed n = true ∧ n ∉ s.playNote ∧
        n.tail = none := by
      rintro ⟨n, hn, he, -, ht⟩
      exact h n hn he ht
    constructor
    · simp only [tick]
      rw [if_neg (fun hx => hne (hmiss.mp hx))]
    · simp only [tick]
      rw [if_neg (fun hx => hne (hmiss.mp hx))]

/-- C4 witness: in a state whose only live note is an expired tailed note,
the tick moves the note to `exit` but leaves streak and multiplier alone. -/
theorem claim4_witness :
    (tick sW 101).consecutiveHits = 5 ∧ (tick sW 101).multiplier = 12 / 10 ∧
    Sum.inl wTailedNote ∈ (tick sW 101).exit := by
  have h := claim4_miss_rule sW 101
  have h4 := h.2.2.2 (by decide)
  exact ⟨h4.1.trans rfl, h4.2.trans rfl, h.2.2.1 wTailedNote (by decide) (by decide)⟩

/-- C7: each tick moves a live note down by exactly
`350 / (2000 / 20) = 3.5` until elapsed ticks since its creation exceed
`2000 / 1000 / 0.02 = 100`, after which the note leaves the live sequence
for `exit` (every surviving note is a moved non-expired note). -/
theorem claim7_note_motion :
    movementPerTick = 7 / 2 ∧
    NoteConstants.NOTE_TRAVEL_DURATION / 1000 / Constants.SECOND_PER_TICK = 100 ∧
    ∀ (s : State) (elapsed : ℕ) (n : Note), n ∈ s.note →
      if noteExpired elapsed n then
        Sum.inl n ∈ (tick s elapsed).exit ∧
          ∀ p ∈ (tick s elapsed).note, ∃ q ∈ s.note,
            noteExpired elapsed q = false ∧ p = moveNote q
      else
        moveNote n ∈ (tick s elapsed).note ∧
          (moveNote n).cy = n.cy + 7 / 2 := by
  refine ⟨?_, ?_, ?_⟩
  · norm_num [movementPerTick, NoteConstants.NOTE_PATH_LENGTH,
      NoteConstants.NOTE_TRAVEL_DURATION, Constants.TICK_RATE_MS]
  · norm_num [NoteConstants.NOTE_TRAVEL_DURATION, Constants.SECOND_PER_TICK]
  · intro s elapsed n hn
    by_cases he : noteExpired elapsed n
    · rw [if_pos he]
      constructor
      · simp only [tick, List.mem_append, List.mem_map]
        exact Or.inl ⟨n, List.mem_filter.mpr ⟨hn, he⟩, rfl⟩
      · intro p hp
        simp only [tick, List.mem_map, List.mem_filter, Bool.not_eq_true']
          at hp
        obtain ⟨q, ⟨hq, hqe⟩, hpq⟩ := hp
        exact ⟨q, hq, hqe, hpq.symm⟩
    · rw [if_neg he]
      constructor
      · simp only [tick, List.mem_map]
        exact ⟨n, List.mem_filter.mpr
          ⟨hn, by simp [Bool.not_eq_true', Bool.eq_false_iff, he]⟩, rfl⟩
      · show n.cy + movementPerTick = n.cy + 7 / 2
        norm_num [movementPerTick, NoteConstants.NOTE_PATH_LENGTH,
          NoteConstants.NOTE_TRAVEL_DURATION, Constants.TICK_RATE_MS]

/-- C7 witness: a fresh note (one tick old) advances from `cy = 0` to
`cy = 3.5` and stays live. -/
theorem claim7_witness :
    moveNote dummyNote ∈ (tick s7 1).note ∧
    (moveNote dummyNote).cy = dummyNote.cy + 7 / 2 := by
  have h := claim7_note_motion.2.2 s7 1 dummyNote (by decide)
  rwa [if_neg (by decide)] at h

/-- Every hash output is below the modulus. -/
theorem RNG.hash_lt (x : ℕ) : RNG.hash x < RNG.m :=
  Nat.mod_lt _ (by norm_num [RNG.m])

/-- Rounding to granularity `2^j` yields a multiple of `2^j`. -/
theorem RNG.roundNearestPow2_dvd (j v : ℕ) :
    2 ^ j ∣ RNG.roundNearestPow2 j v := by
  unfold RNG.roundNearestPow2
  split_ifs <;> exact dvd_mul_left _ _

/-- Integers below `2^53` are exactly representable doubles. -/
theorem RNG.roundDouble_eq_self (v : ℕ) (h : v < 2 ^ 53) :
    RNG.roundDouble v = v := by
  unfold RNG.roundDouble
  exact if_pos h

/-- Rounding an integer at or above `2^53` to a double yields an even
integer: the granularity exponent is at least 1. -/
theorem RNG.roundDouble_even (v : ℕ) (h : 2 ^ 53 ≤ v) :
    2 ∣ RNG.roundDouble v := by
  unfold RNG.roundDouble
  rw [if_neg (Nat.not_lt.mpr h)]
  have hj : RNG.roundExp v ≠ 0 := by
    unfold RNG.roundExp
    split_ifs <;> omega
  exact dvd_trans (dvd_pow_self 2 hj) (RNG.roundNearestPow2_dvd _ _)

/-- Rounding does not pull a value at or above `2^53` below `2^53`. -/
theorem RNG.roundDouble_ge (v : ℕ) (h : 2 ^ 53 ≤ v) :
    2 ^ 53 ≤ RNG.roundDouble v := by
  unfold RNG.roundDouble
  rw [if_neg (Nat.not_lt.mpr h)]
  have hle : RNG.roundExp v ≤ 53 := by
    unfold RNG.roundExp
    split_ifs <;> omega
  have hq : 2 ^ 53 ≤ v / 2 ^ RNG.roundExp v * 2 ^ RNG.roundExp v := by
    have hdvd : 2 ^ RNG.roundExp v ∣ 2 ^ 53 := pow_dvd_pow 2 hle
    calc 2 ^ 53 = 2 ^ 53 / 2 ^ RNG.roundExp v * 2 ^ RNG.roundExp v :=
        (Nat.div_mul_cancel hdvd).symm
      _ ≤ v / 2 ^ RNG.roundExp v * 2 ^ RNG.roundExp v :=
        Nat.mul_le_mul_right _ (Nat.div_le_div_right h)
  unfold RNG.roundNearestPow2
  split_ifs <;>
    first
      | exact hq
      | exact le_trans hq (Nat.mul_le_mul_right _ (Nat.le_succ _))

/-- Below the `2^53` overflow threshold the double arithmetic is exact and
`hash` agrees with the exact linear congruential map. -/
theorem RNG.hash_exact (x : ℕ) (h : RNG.a * x + RNG.c < 2 ^ 53) :
    RNG.hash x = (RNG.a * x + RNG.c) % RNG.m := by
  unfold RNG.hash
  have hp : RNG.a * x < 2 ^ 53 := by
    have hc : RNG.c = 12345 := rfl
    omega
  rw [RNG.roundDouble_eq_self _ hp, RNG.roundDouble_eq_self _ h]

/-- At or above the `2^53` threshold the rounded sum is even, and since the
modulus is even so is the hash output. -/
theorem RNG.hash_even (x : ℕ) (h : 2 ^ 53 ≤ RNG.a * x + RNG.c) :
    2 ∣ RNG.hash x := by
  unfold RNG.hash
  have hsum : 2 ^ 53 ≤ RNG.roundDouble (RNG.a * x) + RNG.c := by
    by_cases hp : RNG.a * x < 2 ^ 53
    · rw [RNG.roundDouble_eq_self _ hp]
      exact h
    · have := RNG.roundDouble_ge (RNG.a * x) (Nat.le_of_not_lt hp)
      omega
  exact (Nat.dvd_mod_iff (by norm_num [RNG.m] : (2 : ℕ) ∣ RNG.m)).mpr
    (RNG.roundDouble_even _ hsum)

/-- `hash` never outputs `2^31 − 1`: in the exact regime the unique
residue hitting it (230538014, via the multiplicative inverse 1857678181
of `a`) lies far above the overflow threshold `2^53 / a`, and in the
rounded regime every output is even while `2^31 − 1` is odd. -/
theorem RNG.hash_ne_max (x : ℕ) : RNG.hash x ≠ 2147483647 := by
  intro hmax
  by_cases h : RNG.a * x + RNG.c < 2 ^ 53
  · rw [RNG.hash_exact x h] at hmax
    have hme : RNG.a * x + RNG.c ≡ 2147471302 + RNG.c [MOD RNG.m] := by
      show (RNG.a * x + RNG.c) % RNG.m = (2147471302 + RNG.c) % RNG.m
      rw [hmax]
      decide
    have hax : RNG.a * x ≡ 2147471302 [MOD RNG.m] :=
      Nat.ModEq.add_right_cancel' RNG.c hme
    have hone : (1 : ℕ) ≡ 1857678181 * RNG.a [MOD RNG.m] := by decide
    have hx2 : x ≡ 230538014 [MOD RNG.m] := by
      have h1 : x ≡ 1857678181 * RNG.a * x [MOD RNG.m] := by
        have := hone.mul_right x
        rwa [one_mul] at this
      have h2 : 1857678181 * RNG.a * x
          ≡ 1857678181 * 2147471302 [MOD RNG.m] := by
        rw [mul_assoc]
        exact hax.mul_left 1857678181
      have h3 : 1857678181 * 2147471302 ≡ 230538014 [MOD RNG.m] := by decide
      exact (h1.trans h2).trans h3
    have ha : RNG.a = 1103515245 := rfl
    have hc : RNG.c = 12345 := rfl
    rw [ha, hc] at h
    norm_num at h
    have hxb : x < 2147483648 := by omega
    have hxv : x % RNG.m = 230538014 % RNG.m := hx2
    have hm : RNG.m = 2147483648 := rfl
    rw [hm, Nat.mod_eq_of_lt hxb] at hxv
    norm_num at hxv
    omega
  · have heven := RNG.hash_even x (Nat.le_of_not_lt h)
    rw [hmax] at heven
    exact absurd heven (by decide)

/-- The scaled hash stays strictly below 1. -/
theorem RNG.scale_hash_lt_one (x : ℕ) : RNG.scale (RNG.hash x) < 1 := by
  have h1 := RNG.hash_lt x
  have h2 := RNG.hash_ne_max x
  have hm : RNG.m = 2147483648 := rfl
  have hle : RNG.hash x ≤ 2147483646 := by omega
  rw [RNG.scale, div_lt_one (by norm_num [RNG.m])]
  have hle2 : (RNG.hash x : ℚ) ≤ 2147483646 := by exact_mod_cast hle
  norm_num [RNG.m]
  linarith

/-- Every reachable seed is below the modulus, so every intermediate value
of `hash` on it is below `2^62`, where the double model is faithful. -/
theorem RNG.reachableSeed_lt (x : ℕ) (h : RNG.reachableSeed x) : x < RNG.m := by
  obtain ⟨k, s, hs, hit⟩ := h
  cases k with
  | zero =>
      simp only [Function.iterate_zero, id_eq] at hit
      subst hit
      simp only [List.mem_cons, List.not_mem_nil, or_false] at hs
      rcases hs with rfl | rfl | rfl | rfl <;> norm_num [RNG.m]
  | succ n =>
      rw [Function.iterate_succ_apply'] at hit
      rw [← hit]
      exact RNG.hash_lt _

/-- C8 (amended): `hash` evaluates `(1103515245·seed + 12345) mod 2^31` in
IEEE double arithmetic, so it agrees with the exact linear congruential map
only while the product stays below `2^53` and diverges from it at larger
(reachable) seeds; iterating from a fixed seed is the deterministic
sequence of repeated `hash` applications; and `scale (hash x)` lies in the
half-open interval [0, 1) for every reachable `x`, since the output
`2^31 − 1` is impossible. -/
theorem claim8_prng_range :
    (∀ x : ℕ, 1103515245 * x + 12345 < 2 ^ 53 →
      RNG.hash x = (1103515245 * x + 12345) % 2 ^ 31) ∧
    (∀ h : ℕ, RNG.scale h = (h : ℚ) / (2 ^ 31 - 1)) ∧
    (∀ k seed : ℕ, RNG.hash^[k + 1] seed = RNG.hash (RNG.hash^[k] seed)) ∧
    (∀ x : ℕ, RNG.reachableSeed x →
      0 ≤ RNG.scale (RNG.hash x) ∧ RNG.scale (RNG.hash x) < 1) := by
  refine ⟨fun x hx => ?_,
    fun h => by norm_num [RNG.scale, RNG.m],
    fun k seed => Function.iterate_succ_apply' RNG.hash k seed,
    fun x _ => ⟨div_nonneg (by positivity) (by norm_num [RNG.m]),
      RNG.scale_hash_lt_one x⟩⟩
  rw [RNG.hash_exact x hx]
  norm_num [RNG.a, RNG.c, RNG.m]

/-- C8 counterexample: the seed 829870797 = hash(100) is reachable, and on
it the double-rounded program hash gives 1533044608 while the exact linear
congruential map gives 1533044610 — the claim's formula
`hash(seed) = (1103515245·seed + 12345) mod 2^31` fails on the program at a
reachable input (the product overflows the 53-bit double mantissa). -/
theorem claim8_counterexample :
    RNG.reachableSeed 829870797 ∧
    RNG.hash^[1] 100 = 829870797 ∧
    RNG.hash 829870797 = 1533044608 ∧
    (1103515245 * 829870797 + 12345) % 2 ^ 31 = 1533044610 ∧
    RNG.hash 829870797 ≠ (1103515245 * 829870797 + 12345) % 2 ^ 31 :=
  ⟨⟨1, 100, by decide, by decide⟩, by decide, by decide, by decide, by decide⟩

/-- C8 witness: at the stream seed 100 the product is below `2^53`, the
hash agrees with the exact formula, and the scaled value lies in [0, 1). -/
theorem claim8_witness :
    RNG.hash 100 = (1103515245 * 100 + 12345) % 2 ^ 31 ∧
    0 ≤ RNG.scale (RNG.hash 100) ∧ RNG.scale (RNG.hash 100) < 1 :=
  ⟨claim8_prng_range.1 100 (by norm_num),
    claim8_prng_range.2.2.2 100 ⟨0, 100, by decide, rfl⟩⟩

/-- Rounding to one decimal fixes every multiple of one tenth. -/
theorem round1_natCast_div_ten (j : ℕ) : round1 ((j : ℚ) / 10) = (j : ℚ) / 10 := by
  unfold round1 jsRound
  rw [div_mul_cancel₀ _ (by norm_num : (10 : ℚ) ≠ 0)]
  have hfloor : ⌊(j : ℚ) + 1 / 2⌋ = (j : ℤ) := by
    rw [Int.floor_eq_iff]
    constructor
    · push_cast; linarith
    · push_cast; linarith
  rw [hfloor]
  norm_num

/-- Rounding to one decimal loses at most one twentieth downward. -/
theorem round1_ge (q : ℚ) : q - 1 / 20 ≤ round1 q := by
  unfold round1 jsRound
  have h := Int.sub_one_lt_floor (q * 10 + 1 / 2)
  have h2 : q * 10 - 1 / 2 ≤ (⌊q * 10 + 1 / 2⌋ : ℚ) := by linarith
  linarith

/-- Under the multiplier invariant, the shared scoring update keeps the
multiplier on the `k/10, k ≥ 10` grid and never lowers the score. -/
theorem cms_mult_score (s : State) (h : MultInv s) :
    (∃ k' : ℕ, 10 ≤ k' ∧
      (calculateMultiplierAndScore s).roundedMultiplier = (k' : ℚ) / 10) ∧
    s.score ≤ (calculateMultiplierAndScore s).roundedScore := by
  obtain ⟨k, hk, hm⟩ := h
  have hm1 : ∃ k' : ℕ, 10 ≤ k' ∧
      (calculateMultiplierAndScore s).roundedMultiplier = (k' : ℚ) / 10 := by
    show ∃ k' : ℕ, 10 ≤ k' ∧
      round1 (if (s.consecutiveHits + 1) % 10 = 0 then s.multiplier + 2 / 10
        else s.multiplier) = (k' : ℚ) / 10
    by_cases h10 : (s.consecutiveHits + 1) % 10 = 0
    · rw [if_pos h10, hm]
      refine ⟨k + 2, by omega, ?_⟩
      have he : (k : ℚ) / 10 + 2 / 10 = ((k + 2 : ℕ) : ℚ) / 10 := by
        push_cast; ring
      rw [he, round1_natCast_div_ten]
    · rw [if_neg h10, hm]
      exact ⟨k, hk, round1_natCast_div_ten k⟩
  obtain ⟨k', hk', hrm⟩ := hm1
  refine ⟨⟨k', hk', hrm⟩, ?_⟩
  have h1 : (1 : ℚ) ≤ (calculateMultiplierAndScore s).roundedMultiplier := by
    rw [hrm, le_div_iff₀ (by norm_num : (0 : ℚ) < 10)]
    have : (10 : ℚ) ≤ (k' : ℚ) := by exact_mod_cast hk'
    linarith
  have h2 := round1_ge
    (s.score + 1 * (calculateMultiplierAndScore s).roundedMultiplier)
  have h3 : (calculateMultiplierAndScore s).roundedScore
      = round1 (s.score + 1 * (calculateMultiplierAndScore s).roundedMultiplier) :=
    rfl
  rw [h3]
  linarith

/-- One reducer step preserves the multiplier grid invariant and never
lowers the score. -/
theorem step_preserves (s : State) (e : GameEvent) (h : MultInv s) :
    MultInv (reduceState s e) ∧ s.score ≤ (reduceState s e).score := by
  cases e with
  | musicNote n =>
      simp only [reduceState]
      split <;> exact ⟨h, le_rfl⟩
  | keyPress column =>
      simp only [reduceState, processNoteEvent]
      split
      · split
        · split
          · exact ⟨(cms_mult_score s h).1, (cms_mult_score s h).2⟩
          · exact ⟨h, le_rfl⟩
        · exact ⟨h, le_rfl⟩
      · exact ⟨h, le_rfl⟩
  | backgroundNote n => exact ⟨h, le_rfl⟩
  | tick elapsed =>
      constructor
      · by_cases hm : 0 < (((s.note.filter fun note => noteExpired elapsed note).filter
            fun note => !s.playNote.contains note).filter
              fun note => note.tail.isNone).length
        · exact ⟨10, le_rfl, by simp only [reduceState, tick, if_pos hm]; norm_num⟩
        · obtain ⟨k, hk, hmul⟩ := h
          exact ⟨k, hk, by simp only [reduceState, tick, if_neg hm]; exact hmul⟩
      · exact le_rfl
  | endTail endTime =>
      simp only [reduceState, processNoteEvent]
      split
      · exact ⟨(cms_mult_score s h).1, (cms_mult_score s h).2⟩
      · exact ⟨⟨10, le_rfl, by norm_num⟩, le_rfl⟩
  | gameEnd => exact ⟨h, le_rfl⟩

/-- Every reachable state satisfies the multiplier grid invariant. -/
theorem multInv_reachable (s : State) (h : Reachable s) : MultInv s := by
  induction h with
  | init => exact ⟨10, le_rfl, by norm_num [initialState]⟩
  | step s e _ ih => exact (step_preserves s e ih).1

/-- C9: the score is monotone non-decreasing — no reducer event applied to a
reachable state ever lowers `score`. -/
theorem claim9_score_monotone :
    ∀ s : State, Reachable s → ∀ e : GameEvent,
      s.score ≤ (reduceState s e).score :=
  fun s hs e => (step_preserves s e (multInv_reachable s hs)).2

/-- C9 witness: a tick from the initial state does not lower the score. -/
theorem claim9_witness :
    initialState.score ≤ (reduceState initialState (GameEvent.tick 1)).score :=
  claim9_score_monotone initialState Reachable.init (GameEvent.tick 1)

/-- `processNoteEvent` never writes the `backgroundNote` field. -/
theorem processNoteEvent_backgroundNote (s : State) (e : GameEvent) :
    (processNoteEvent s e).backgroundNote = s.backgroundNote := by
  unfold processNoteEvent
  split
  · split
    · split
      · split <;> rfl
      · rfl
    · rfl
  · dsimp only
    split <;> rfl
  · rfl

/-- C10: in every reachable state the `backgroundNote` sequence is empty —
it starts empty, every tick clears it, and no transition stores into it. -/
theorem claim10_background_empty :
    ∀ s : State, Reachable s → s.backgroundNote = [] := by
  intro s h
  induction h with
  | init => rfl
  | step s e _ ih =>
      cases e with
      | musicNote n =>
          simp only [reduceState]
          split <;> exact ih
      | keyPress column =>
          exact (processNoteEvent_backgroundNote s (GameEvent.keyPress column)).trans ih
      | backgroundNote n => exact ih
      | tick elapsed => rfl
      | endTail endTime =>
          exact (processNoteEvent_backgroundNote s (GameEvent.endTail endTime)).trans ih
      | gameEnd => exact ih

/-- C10 witness: the initial state has an empty `backgroundNote` sequence. -/
theorem claim10_witness : initialState.backgroundNote = [] :=
  claim10_background_empty initialState Reachable.init

end GuitarHero
